import Mathlib

/-
Verification of the QA-Utils Playwright custom reporter
(src/majorupdate4.0v.ts, the most complete of the three revisions).

The development shallowly embeds the result-consolidation core:
  - constructor option normalization (imageQuality, historyTrend)
  - attachment materialization (getEmbeddedAssetData / processAttachment),
    with the filesystem, the sharp JPEG re-encoder and base64 encoding
    modelled as explicit environment functions (file writes are returned
    as an explicit output list instead of performed as effects)
  - per-test consolidation and run counters (the onEnd loop)
  - the history ledger (upsert by buildNo, sort by timestamp, trim).
Byte buffers are lists of naturals; timestamps are the numeric value
that new Date(ts).getTime() yields for the stored ISO string.
-/

namespace QAUtils

/-- Playwright TestResult.status / TestCase.expectedStatus values. -/
inductive Status
  | passed
  | failed
  | timedOut
  | skipped
  | interrupted
  deriving DecidableEq, Repr

/-- Raw attachment as delivered by the runner: name, declared content type
(empty string models a missing/empty declared type), optionally a
filesystem path and optionally an in-memory byte buffer. -/
structure RawAttachment where
  name : String
  contentType : String
  path : Option String
  body : Option (List Nat)
  deriving DecidableEq, Repr

/-- One attempt of a test (the fields of TestResult the core consumes). -/
structure Attempt where
  status : Status
  duration : Int
  attachments : List RawAttachment
  retry : Nat
  deriving DecidableEq, Repr

/-- External world of the materialization pipeline under the total
filesystem view: the filesystem content (fs.existsSync p is modelled by
(fs p).isSome and fs.promises.readFile by the stored bytes, so a path
exists exactly when it is readable), the sharp jpeg re-encoder (quality,
bytes; none models a thrown re-encoding error, which the source catches),
base64 encoding, the Date.now () value used in stored file names, and the
attachments output directory. The refined FsEnv below separates the
existence check from the read outcome to expose the uncaught rejection of
a read on an existing path; processAttachmentE_agrees shows this total
view is exactly the every-existing-path-is-readable specialization of the
refined one. -/
structure Env where
  fs : String → Option (List Nat)
  compressJpeg : Int → List Nat → Option (List Nat)
  base64 : List Nat → String
  now : Nat
  attachmentsDir : String

/-- Reporter options after constructor normalization. -/
structure Options where
  embedAssets : Bool
  compressImages : Bool
  imageQuality : Int
  buildNo : String
  deriving DecidableEq, Repr

/-- Constructor normalization of imageQuality:
Math.max (1, Math.min (100, options?.imageQuality || 80)).
A falsy supplied value (absent or 0) becomes the default 80 before the
clamp; NaN is outside the integer model. -/
def normImageQuality (q : Option Int) : Int :=
  max 1 (min 100 (match q with
    | none => 80
    | some v => if v = 0 then 80 else v))

/-- Constructor normalization of historyTrend: options?.historyTrend || 4. -/
def normHistoryTrend (t : Option Int) : Int :=
  match t with
  | none => 4
  | some v => if v = 0 then 4 else v

/-- Structural model of String.prototype.startsWith, used by the image
check finalContentType.startsWith ("image/"). -/
def strStartsWith (s pre : String) : Bool :=
  pre.data.isPrefixOf s.data

/-- attachment.contentType || "application/octet-stream". -/
def resolveContentType (ct : String) : String :=
  if ct = "" then "application/octet-stream" else ct

/-- Bytes readable through the declared path under the total filesystem
view: the source guard (attachment.path && fs.existsSync (attachment.path))
followed by readFile, with existence identified with readability; the
refined pathChecked/acquireBuffer below keep the two apart. -/
def pathBytes (env : Env) (a : RawAttachment) : Option (List Nat) :=
  match a.path with
  | none => none
  | some p => if p = "" then none else env.fs p

/-- Buffer selection of getEmbeddedAssetData: bytes from the path when it
resolves, else the in-memory body, else nothing. -/
def selectBuffer (env : Env) (a : RawAttachment) : Option (List Nat) :=
  match pathBytes env a with
  | some b => some b
  | none => a.body

/-- Optional image re-encoding step of getEmbeddedAssetData: when the
resolved type is an image other than image/gif and compression is enabled,
try sharp (...).jpeg with the configured quality; on failure keep the
original bytes and type (the catch branch). -/
def maybeCompress (env : Env) (opts : Options) (ct : String) (buf : List Nat) :
    List Nat × String :=
  if strStartsWith ct "image/" && opts.compressImages && ct != "image/gif" then
    match env.compressJpeg opts.imageQuality buf with
    | some b => (b, "image/jpeg")
    | none => (buf, ct)
  else (buf, ct)

/-- getEmbeddedAssetData: returns the data URL and the final content type.
With no readable source it returns the empty data URL. -/
def getEmbeddedAssetData (env : Env) (opts : Options) (a : RawAttachment) :
    String × String :=
  let finalCT := resolveContentType a.contentType
  match selectBuffer env a with
  | none => ("", finalCT)
  | some buf =>
    let bc := maybeCompress env opts finalCT buf
    ("data:" ++ bc.2 ++ ";base64," ++ env.base64 bc.1, bc.2)

/-- Materialized attachment record of the report data. -/
structure ProcessedAttachment where
  name : String
  contentType : String
  path : String
  deriving DecidableEq, Repr

/-- File extension part of the stored file name:
attachment.contentType?.split ("/") [1] || "bin". -/
def extOf (ct : String) : String :=
  match ct.splitOn "/" with
  | _ :: e :: _ => if e = "" then "bin" else e
  | _ => "bin"

/-- processAttachment: in embed mode the attachment becomes an inline data
URL and nothing is written; in stored mode the bytes (path first, else
body) are written under a collision-resistant name and a relative
reference is returned. The returned list holds the file writes the source
performs as effects, as (destination, bytes) pairs. -/
def processAttachment (env : Env) (opts : Options) (a : RawAttachment)
    (testId : String) (retry : Nat) :
    ProcessedAttachment × List (String × List Nat) :=
  if opts.embedAssets then
    let dc := getEmbeddedAssetData env opts a
    ({ name := a.name, contentType := dc.2, path := dc.1 }, [])
  else
    let fname := testId ++ "-" ++ a.name ++ "-" ++ toString retry ++ "-" ++
      toString env.now ++ "." ++ extOf a.contentType
    let dest := env.attachmentsDir ++ "/" ++ fname
    let rel := "attachments/" ++ fname
    let writes : List (String × List Nat) :=
      match pathBytes env a with
      | some b => [(dest, b)]
      | none =>
        match a.body with
        | some b => [(dest, b)]
        | none => []
    ({ name := a.name, contentType := resolveContentType a.contentType,
       path := rel }, writes)

/-- Accumulated state of one logical test: the test identity, its declared
expectation, and its attempts in arrival order (the testMap entry). -/
structure TestEntry where
  id : String
  expectedStatus : Status
  results : List Attempt
  deriving DecidableEq, Repr

/-- Default attempt used only to totalize the last-element access; every
theorem below assumes a non-empty attempt list, as the accumulator
guarantees (an entry is created only when a result arrives). -/
def defaultAttempt : Attempt :=
  { status := .passed, duration := 0, attachments := [], retry := 0 }

/-- results [results.length - 1]. -/
def finalResult (results : List Attempt) : Attempt :=
  results.getLastD defaultAttempt

/-- Verdict derivation of onEnd: the final status, inverted to failed when
the test was expected to fail but passed. -/
def reportingStatus (expectedStatus : Status) (finalStatus : Status) : Status :=
  if expectedStatus = .failed ∧ finalStatus = .passed then .failed
  else finalStatus

/-- Reporting status of one accumulated test entry. -/
def rStatus (t : TestEntry) : Status :=
  reportingStatus t.expectedStatus (finalResult t.results).status

/-- Consolidated record for one test (the fields with algorithmic content:
status, retries, attachments across all attempts in attempt order then
declaration order). -/
structure TestRecord where
  status : Status
  retries : Nat
  attachments : List ProcessedAttachment
  deriving DecidableEq, Repr

/-- ResultConsolidator: the per-test body of the onEnd loop. -/
def consolidate (env : Env) (opts : Options) (t : TestEntry) : TestRecord :=
  { status := rStatus t,
    retries := t.results.length - 1,
    attachments := t.results.flatMap fun r =>
      r.attachments.map fun a =>
        (processAttachment env opts a t.id r.retry).1 }

/-- Run counters (flaky is the count of tests with retries). -/
structure Counts where
  total : Nat
  passed : Nat
  failed : Nat
  skipped : Nat
  flaky : Nat
  deriving DecidableEq, Repr

/-- Membership in the failed counting bucket: failed, timedOut and
interrupted all increment counts.failed. -/
def isFailBucket (s : Status) : Bool :=
  s = .failed || s = .timedOut || s = .interrupted

/-- Counter updates of one iteration of the onEnd loop. -/
def stepCounts (c : Counts) (t : TestEntry) : Counts :=
  { total := c.total + 1,
    passed := if rStatus t = .passed then c.passed + 1 else c.passed,
    failed := if isFailBucket (rStatus t) then c.failed + 1 else c.failed,
    skipped := if rStatus t = .skipped then c.skipped + 1 else c.skipped,
    flaky := if 1 < t.results.length then c.flaky + 1 else c.flaky }

/-- RunAggregator: fold the counter updates over all accumulated tests. -/
def countsOf (run : List TestEntry) : Counts :=
  run.foldl stepCounts ⟨0, 0, 0, 0, 0⟩

/-- History ledger entry; timestamp is the numeric time of the ISO string. -/
structure HistoryEntry where
  buildNo : String
  total : Nat
  passed : Nat
  timestamp : Nat
  deriving DecidableEq, Repr

/-- Upsert of onEnd: replace the first entry with the same buildNo
(findIndex), else append at the end (push). -/
def upsert (ledger : List HistoryEntry) (e : HistoryEntry) :
    List HistoryEntry :=
  match ledger with
  | [] => [e]
  | h :: t => if h.buildNo = e.buildNo then e :: t else h :: upsert t e

/-- Timestamp order used by the sort comparator
new Date (a.timestamp).getTime () - new Date (b.timestamp).getTime (). -/
def tsLe (a b : HistoryEntry) : Prop :=
  a.timestamp ≤ b.timestamp

instance : DecidableRel tsLe := fun a b =>
  inferInstanceAs (Decidable (a.timestamp ≤ b.timestamp))

instance : IsTotal HistoryEntry tsLe :=
  ⟨fun a b => Nat.le_total a.timestamp b.timestamp⟩

instance : IsTrans HistoryEntry tsLe :=
  ⟨fun _ _ _ => Nat.le_trans⟩

/-- historyData.sort by ascending timestamp (a stable sort by key). -/
def sortHistory (l : List HistoryEntry) : List HistoryEntry :=
  l.insertionSort tsLe

/-- while (length > window) shift (): drop the oldest from the front. -/
def trimHistory (window : Nat) (l : List HistoryEntry) : List HistoryEntry :=
  l.drop (l.length - window)

/-- Normalization of the ledger at run end: sort ascending by timestamp,
then trim from the front to the configured window. -/
def normalizeHistory (window : Nat) (l : List HistoryEntry) :
    List HistoryEntry :=
  trimHistory window (sortHistory l)

/-- History load of onBegin, with JSON.parse abstracted: on parse failure
the ledger starts empty (the catch branch) and the run proceeds. -/
def loadHistory (parse : String → Option (List HistoryEntry))
    (contents : String) : List HistoryEntry :=
  match parse contents with
  | some l => l
  | none => []

/-- Store of pending concurrent materialization results, indexed by the
position of the task in the Promise.all array. -/
def emptyStore : Nat → Option ProcessedAttachment := fun _ => none

/-- Execution of the concurrent materializations of one Promise.all call
under an arbitrary completion schedule: each schedule step completes the
task at that index and records its value at that index. -/
def runSchedule (f : RawAttachment → ProcessedAttachment)
    (tasks : List RawAttachment) (sched : List Nat)
    (store : Nat → Option ProcessedAttachment) :
    Nat → Option ProcessedAttachment :=
  match sched with
  | [] => store
  | i :: rest =>
    runSchedule f tasks rest
      (fun j => if j = i then (tasks.get? i).map f else store j)

/-- Read-out of the completed results in index order, as Promise.all
resolves them. -/
def gather (store : Nat → Option ProcessedAttachment) (n : Nat) :
    List (Option ProcessedAttachment) :=
  (List.range n).map store

/-- Environment fixture used by the concrete witnesses. -/
def wEnv : Env :=
  { fs := fun _ => none, compressJpeg := fun _ b => some b,
    base64 := fun _ => "", now := 0, attachmentsDir := "out" }

/-- Options fixture used by the concrete witnesses (embed mode). -/
def wOpts : Options :=
  { embedAssets := true, compressImages := true, imageQuality := 80,
    buildNo := "N/A" }

/-- Attempt fixture: a plain passing attempt. -/
def wPassed : Attempt :=
  { status := .passed, duration := 5, attachments := [], retry := 0 }

/-- Attempt fixture: a plain failing attempt. -/
def wFailed : Attempt :=
  { status := .failed, duration := 5, attachments := [], retry := 0 }

/-- Test-entry fixture: the KnownBug scenario, expected to fail with one
passed attempt. -/
def wKnownBug : TestEntry :=
  { id := "kb", expectedStatus := .failed, results := [wPassed] }

/-- Clamp bounds of the normalized image quality, shared by the quality
claims. -/
theorem normImageQuality_bounds (q : Option Int) :
    1 ≤ normImageQuality q ∧ normImageQuality q ≤ 100 := by
  refine ⟨le_max_left 1 _, ?_⟩
  exact max_le (by norm_num) (min_le_left 100 _)

/-- C1: for a test consolidated from a non-empty attempt list, an
expected-to-fail test whose last attempt passed is reported failed, and an
expected-to-pass test keeps the last attempt status unchanged. -/
theorem expectation_inversion (env : Env) (opts : Options) (t : TestEntry)
    (hne : t.results ≠ []) :
    (t.expectedStatus = .failed → (finalResult t.results).status = .passed →
      (consolidate env opts t).status = .failed) ∧
    (t.expectedStatus = .passed →
      (consolidate env opts t).status = (finalResult t.results).status) := by
  constructor
  · intro he hf
    simp [consolidate, rStatus, reportingStatus, he, hf]
  · intro he
    simp [consolidate, rStatus, reportingStatus, he]

/-- Witness for C1: the KnownBug scenario (expected failed, one passed
attempt, reported failed). -/
theorem expectation_inversion_witness :
    (consolidate wEnv wOpts wKnownBug).status = Status.failed :=
  (expectation_inversion wEnv wOpts wKnownBug (by decide)).1
    (by decide) (by decide)

/-- C3: retries equals the attempt count minus one, and consolidating a
test increments the flaky counter exactly when it has more than one
attempt, whatever the final status. -/
theorem retries_and_flaky (env : Env) (opts : Options)
    (run : List TestEntry) (t : TestEntry) (hne : t.results ≠ []) :
    (consolidate env opts t).retries = t.results.length - 1 ∧
    (countsOf (run ++ [t])).flaky =
      (countsOf run).flaky +
        (if 1 < t.results.length then 1 else 0) := by
  refine ⟨rfl, ?_⟩
  unfold countsOf
  rw [List.foldl_append]
  simp only [List.foldl_cons, List.foldl_nil, stepCounts]
  split <;> simp

/-- Test-entry fixture: the Login scenario, one failed then one passed
attempt. -/
def wLogin : TestEntry :=
  { id := "login", expectedStatus := .passed,
    results := [wFailed, wPassed] }

/-- Witness for C3: the two-attempt Login test has retries one and adds
one to the flaky counter. -/
theorem retries_and_flaky_witness :
    (consolidate wEnv wOpts wLogin).retries = 1 ∧
    (countsOf ([] ++ [wLogin])).flaky =
      (countsOf []).flaky +
        (if 1 < wLogin.results.length then 1 else 0) :=
  retries_and_flaky wEnv wOpts [] wLogin (by decide)

/-- C9: when the persisted history contents fail to parse, loading yields
the empty ledger instead of an error. -/
theorem history_parse_failure
    (parse : String → Option (List HistoryEntry)) (s : String)
    (h : parse s = none) : loadHistory parse s = [] := by
  simp [loadHistory, h]

/-- Witness for C9 at a concrete failing parse. -/
theorem history_parse_failure_witness :
    loadHistory (fun _ => none) "not json" = [] :=
  history_parse_failure (fun _ => none) "not json" rfl

/-- C10: normalized imageQuality is always in the interval from 1 to 100,
falsy values become the default 80 instead of being clamped, negative
values clamp to 1, values above 100 clamp to 100, and falsy historyTrend
becomes the default 4. -/
theorem option_normalization :
    (∀ q : Option Int,
      1 ≤ normImageQuality q ∧ normImageQuality q ≤ 100) ∧
    normImageQuality none = 80 ∧
    normImageQuality (some 0) = 80 ∧
    (∀ v : Int, v < 0 → normImageQuality (some v) = 1) ∧
    (∀ v : Int, 100 < v → normImageQuality (some v) = 100) ∧
    normHistoryTrend none = 4 ∧
    normHistoryTrend (some 0) = 4 := by
  refine ⟨normImageQuality_bounds, rfl, rfl, ?_, ?_, rfl, rfl⟩
  · intro v hv
    have hv0 : ¬ v = 0 := by omega
    simp only [normImageQuality, if_neg hv0]
    omega
  · intro v hv
    have hv0 : ¬ v = 0 := by omega
    simp only [normImageQuality, if_neg hv0]
    omega

/-- Witness for C10 at concrete supplied option values. -/
theorem option_normalization_witness :
    normImageQuality (some (-5)) = 1 ∧
    normImageQuality (some 200) = 100 ∧
    1 ≤ normImageQuality (some 55) ∧ normImageQuality (some 55) ≤ 100 :=
  ⟨option_normalization.2.2.2.1 (-5) (by norm_num),
   option_normalization.2.2.2.2.1 200 (by norm_num),
   (option_normalization.1 (some 55)).1,
   (option_normalization.1 (some 55)).2⟩

/-- Total counter of the fold from an arbitrary accumulator. -/
theorem total_foldl (run : List TestEntry) (c : Counts) :
    (run.foldl stepCounts c).total = c.total + run.length := by
  induction run generalizing c with
  | nil => simp
  | cons t ts ih =>
    rw [List.foldl_cons, ih]
    simp [stepCounts]
    omega

/-- Passed counter of the fold from an arbitrary accumulator. -/
theorem passed_foldl (run : List TestEntry) (c : Counts) :
    (run.foldl stepCounts c).passed =
      c.passed + run.countP (fun t => rStatus t = Status.passed) := by
  induction run generalizing c with
  | nil => simp
  | cons t ts ih =>
    rw [List.foldl_cons, ih, List.countP_cons]
    simp only [stepCounts]
    by_cases h : rStatus t = Status.passed <;> simp [h] <;> omega

/-- Failed counter of the fold from an arbitrary accumulator. -/
theorem failed_foldl (run : List TestEntry) (c : Counts) :
    (run.foldl stepCounts c).failed =
      c.failed + run.countP (fun t => isFailBucket (rStatus t)) := by
  induction run generalizing c with
  | nil => simp
  | cons t ts ih =>
    rw [List.foldl_cons, ih, List.countP_cons]
    simp only [stepCounts]
    by_cases h : isFailBucket (rStatus t) = true <;> simp [h] <;> omega

/-- Skipped counter of the fold from an arbitrary accumulator. -/
theorem skipped_foldl (run : List TestEntry) (c : Counts) :
    (run.foldl stepCounts c).skipped =
      c.skipped + run.countP (fun t => rStatus t = Status.skipped) := by
  induction run generalizing c with
  | nil => simp
  | cons t ts ih =>
    rw [List.foldl_cons, ih, List.countP_cons]
    simp only [stepCounts]
    by_cases h : rStatus t = Status.skipped <;> simp [h] <;> omega

/-- Every reporting status lands in exactly one of the three buckets, so
the bucket counts partition the run length. -/
theorem status_partition (run : List TestEntry) :
    run.length = run.countP (fun t => rStatus t = Status.passed) +
      run.countP (fun t => isFailBucket (rStatus t)) +
      run.countP (fun t => rStatus t = Status.skipped) := by
  induction run with
  | nil => simp
  | cons t ts ih =>
    simp only [List.countP_cons, List.length_cons, ih]
    cases h : rStatus t <;> simp [h, isFailBucket] <;> omega

/-- C2: for every accumulated run (distinct test identities, each with at
least one attempt) the total equals passed plus failed plus skipped, the
total equals the number of distinct identities, and the failed counter
counts exactly the tests whose reporting status is failed, timedOut or
interrupted. -/
theorem counting_invariant (run : List TestEntry)
    (hids : (run.map TestEntry.id).Nodup)
    (hne : ∀ t ∈ run, t.results ≠ []) :
    (countsOf run).total =
      (countsOf run).passed + (countsOf run).failed +
        (countsOf run).skipped ∧
    (countsOf run).total = run.length ∧
    (countsOf run).failed =
      run.countP (fun t => isFailBucket (rStatus t)) := by
  unfold countsOf
  rw [total_foldl, passed_foldl, failed_foldl, skipped_foldl]
  refine ⟨?_, by simp, by simp⟩
  simpa using status_partition run

/-- Test-entry fixture: a test whose only attempt timed out. -/
def wTimedOutEntry : TestEntry :=
  { id := "slow", expectedStatus := Status.passed,
    results := [{ status := Status.timedOut, duration := 9,
                  attachments := [], retry := 0 }] }

/-- Run fixture for the counting witness: a passed test despite the
inversion, a flaky passed test and a timed-out test. -/
def wRun : List TestEntry := [wKnownBug, wLogin, wTimedOutEntry]

/-- Witness for C2: a concrete run of three distinct tests satisfies the
counting invariant, the timed-out test landing in the failed bucket. -/
theorem counting_invariant_witness :
    ((countsOf wRun).total =
      (countsOf wRun).passed + (countsOf wRun).failed +
        (countsOf wRun).skipped) ∧
    (countsOf wRun).total = wRun.length ∧
    (countsOf wRun).failed =
      wRun.countP (fun t => isFailBucket (rStatus t)) :=
  counting_invariant wRun (by decide) (by decide)

/-- The store after a schedule holds, at every completed index, the value
of the task at that index, whatever the completion order. -/
theorem runSchedule_spec (f : RawAttachment → ProcessedAttachment)
    (tasks : List RawAttachment) (sched : List Nat)
    (store : Nat → Option ProcessedAttachment) (j : Nat) :
    runSchedule f tasks sched store j =
      if j ∈ sched then (tasks.get? j).map f else store j := by
  induction sched generalizing store with
  | nil => simp [runSchedule]
  | cons i rest ih =>
    rw [runSchedule, ih]
    by_cases hj : j ∈ rest
    · simp [hj, List.mem_cons]
    · by_cases hji : j = i
      · subst hji
        simp [hj]
      · simp [hj, hji, List.mem_cons]

/-- Reading every index of a list through get? repeats the list. -/
theorem range_map_get (f : RawAttachment → ProcessedAttachment)
    (tasks : List RawAttachment) :
    (List.range tasks.length).map (fun j => (tasks.get? j).map f) =
      tasks.map (fun a => some (f a)) := by
  induction tasks with
  | nil => simp
  | cons a ts ih =>
    rw [List.length_cons, List.range_succ_eq_map]
    simp only [List.map_cons, List.map_map]
    refine congrArg₂ _ rfl ?_
    exact ih

/-- C4: consolidated attachments for attempts [A0, A1] each declaring
[x, y] are exactly [A0.x, A0.y, A1.x, A1.y], and for any attempt the
assembled Promise.all output equals the declaration-order list under every
completion schedule that completes all indices. -/
theorem attachment_ordering (env : Env) (opts : Options) (t : TestEntry)
    (a0 a1 : Attempt) (x y : RawAttachment)
    (ht : t.results = [a0, a1])
    (h0 : a0.attachments = [x, y]) (h1 : a1.attachments = [x, y]) :
    (consolidate env opts t).attachments =
      [(processAttachment env opts x t.id a0.retry).1,
       (processAttachment env opts y t.id a0.retry).1,
       (processAttachment env opts x t.id a1.retry).1,
       (processAttachment env opts y t.id a1.retry).1] ∧
    ∀ (r : Attempt) (sched : List Nat),
      (∀ i, i < r.attachments.length → i ∈ sched) →
      gather (runSchedule
          (fun a => (processAttachment env opts a t.id r.retry).1)
          r.attachments sched emptyStore) r.attachments.length =
        r.attachments.map
          (fun a => some ((processAttachment env opts a t.id r.retry).1)) := by
  constructor
  · simp [consolidate, ht, h0, h1]
  · intro r sched hcov
    unfold gather
    have hstep : ∀ j ∈ List.range r.attachments.length,
        runSchedule (fun a => (processAttachment env opts a t.id r.retry).1)
            r.attachments sched emptyStore j =
          (r.attachments.get? j).map
            (fun a => (processAttachment env opts a t.id r.retry).1) := by
      intro j hj
      rw [runSchedule_spec]
      rw [if_pos (hcov j (List.mem_range.mp hj))]
    rw [List.map_congr_left hstep]
    exact range_map_get _ r.attachments

/-- Raw attachment fixtures for the ordering witness. -/
def wAttX : RawAttachment :=
  { name := "x", contentType := "text/plain", path := none,
    body := some [1] }

/-- Second raw attachment fixture for the ordering witness. -/
def wAttY : RawAttachment :=
  { name := "y", contentType := "image/png", path := none,
    body := some [2] }

/-- Attempt fixture carrying the two witness attachments, retry zero. -/
def wAttempt0 : Attempt :=
  { status := .failed, duration := 1, attachments := [wAttX, wAttY],
    retry := 0 }

/-- Attempt fixture carrying the two witness attachments, retry one. -/
def wAttempt1 : Attempt :=
  { status := .passed, duration := 1, attachments := [wAttX, wAttY],
    retry := 1 }

/-- Test-entry fixture with two attempts of two attachments each. -/
def wAttTest : TestEntry :=
  { id := "att", expectedStatus := .passed,
    results := [wAttempt0, wAttempt1] }

/-- Witness for C4: the concrete two-attempt, two-attachment test yields
the four materialized attachments in attempt-then-declaration order, also
under the reversed completion schedule. -/
theorem attachment_ordering_witness :
    (consolidate wEnv wOpts wAttTest).attachments =
      [(processAttachment wEnv wOpts wAttX wAttTest.id wAttempt0.retry).1,
       (processAttachment wEnv wOpts wAttY wAttTest.id wAttempt0.retry).1,
       (processAttachment wEnv wOpts wAttX wAttTest.id wAttempt1.retry).1,
       (processAttachment wEnv wOpts wAttY wAttTest.id wAttempt1.retry).1] ∧
    gather (runSchedule
        (fun a => (processAttachment wEnv wOpts a wAttTest.id
          wAttempt0.retry).1)
        wAttempt0.attachments [1, 0] emptyStore)
        wAttempt0.attachments.length =
      wAttempt0.attachments.map
        (fun a => some ((processAttachment wEnv wOpts a wAttTest.id
          wAttempt0.retry).1)) :=
  ⟨(attachment_ordering wEnv wOpts wAttTest wAttempt0 wAttempt1 wAttX wAttY
      rfl rfl rfl).1,
   (attachment_ordering wEnv wOpts wAttTest wAttempt0 wAttempt1 wAttX wAttY
      rfl rfl rfl).2 wAttempt0 [1, 0] (by decide)⟩

/-- Counterexample for C5 as stated: a ledger that already holds two
entries with buildNo B (reachable, since load parses the persisted file
without validation and neither upsert nor normalize deduplicates) still
holds two entries for B after upserting the identifier twice, because
upsert only replaces the first match. -/
theorem upsert_duplicate_counterexample :
    ((upsert (upsert
        [{ buildNo := "B", total := 1, passed := 1, timestamp := 0 },
         { buildNo := "B", total := 2, passed := 2, timestamp := 0 }]
        { buildNo := "B", total := 3, passed := 3, timestamp := 1 })
        { buildNo := "B", total := 4, passed := 4, timestamp := 2 }).filter
      (fun h => h.buildNo == "B")).length = 2 := by
  decide

/-- C5 amended: for every ledger holding at most one entry for the
identifier, upserting two entries with that identifier (in either order:
the theorem is symmetric in which entry comes first) leaves exactly one
entry for it, holding the values of the most recent upsert. -/
theorem upsert_latest_wins (ledger : List HistoryEntry)
    (e1 e2 : HistoryEntry) (hb : e1.buildNo = e2.buildNo)
    (hu : (ledger.filter (fun h => h.buildNo == e1.buildNo)).length ≤ 1) :
    (upsert (upsert ledger e1) e2).filter
      (fun h => h.buildNo == e2.buildNo) = [e2] := by
  induction ledger with
  | nil =>
    simp [upsert, hb]
  | cons h t ih =>
    by_cases hh : h.buildNo = e1.buildNo
    · rw [upsert, if_pos hh, upsert, if_pos hb]
      have ht0 : t.filter (fun x => x.buildNo == e1.buildNo) = [] := by
        rw [List.filter_cons] at hu
        simp only [hh, beq_self_eq_true, if_pos] at hu
        rw [List.length_cons] at hu
        exact List.length_eq_zero.mp (by omega)
      rw [List.filter_cons]
      simp only [beq_self_eq_true, if_pos]
      rw [← hb, ht0]
    · rw [upsert, if_neg hh, upsert,
        if_neg (fun hc => hh (hb ▸ hc)), List.filter_cons]
      have hfh : (h.buildNo == e2.buildNo) = false := by
        simp [hb ▸ hh]
      rw [hfh]
      simp only [Bool.false_eq_true, if_neg]
      apply ih
      rw [List.filter_cons] at hu
      have : (h.buildNo == e1.buildNo) = false := by simp [hh]
      rw [this] at hu
      simpa using hu

/-- Witness for C5 amended: upserting B twice into a one-entry ledger for
another build leaves exactly the latest B entry. -/
theorem upsert_latest_wins_witness :
    (upsert (upsert
        [{ buildNo := "A", total := 7, passed := 6, timestamp := 5 }]
        { buildNo := "B", total := 3, passed := 3, timestamp := 10 })
        { buildNo := "B", total := 4, passed := 4, timestamp := 11 }).filter
      (fun h => h.buildNo ==
        ({ buildNo := "B", total := 4, passed := 4,
           timestamp := 11 } : HistoryEntry).buildNo) =
      [{ buildNo := "B", total := 4, passed := 4, timestamp := 11 }] :=
  upsert_latest_wins
    [{ buildNo := "A", total := 7, passed := 6, timestamp := 5 }]
    { buildNo := "B", total := 3, passed := 3, timestamp := 10 }
    { buildNo := "B", total := 4, passed := 4, timestamp := 11 }
    rfl (by decide)

/-- C6: after normalization the ledger is non-decreasing by timestamp and
no longer than the window; when more entries than the window are present,
exactly window entries remain, they are a suffix of the sorted ledger (a
permutation of the inserted entries), and every removed entry has a
timestamp at most that of every kept entry, so the kept entries are the
most recent ones in ascending order. -/
theorem history_normalization (window : Nat) (l : List HistoryEntry) :
    List.Sorted tsLe (normalizeHistory window l) ∧
    (normalizeHistory window l).length ≤ window ∧
    (sortHistory l).Perm l ∧
    (window < l.length →
      (normalizeHistory window l).length = window ∧
      sortHistory l =
        (sortHistory l).take (l.length - window) ++
          normalizeHistory window l ∧
      ∀ x ∈ (sortHistory l).take (l.length - window),
        ∀ y ∈ normalizeHistory window l, x.timestamp ≤ y.timestamp) := by
  have hsorted : List.Sorted tsLe (sortHistory l) :=
    List.sorted_insertionSort tsLe l
  have hlen : (sortHistory l).length = l.length :=
    (List.perm_insertionSort tsLe l).length_eq
  have hnorm : normalizeHistory window l =
      (sortHistory l).drop (l.length - window) := by
    unfold normalizeHistory trimHistory
    rw [hlen]
  refine ⟨?_, ?_, List.perm_insertionSort tsLe l, ?_⟩
  · rw [hnorm]
    exact List.Pairwise.sublist (List.drop_sublist _ _) hsorted
  · rw [hnorm, List.length_drop, hlen]
    omega
  · intro hK
    have hsplit : sortHistory l =
        (sortHistory l).take (l.length - window) ++
          normalizeHistory window l := by
      rw [hnorm, List.take_append_drop]
    refine ⟨?_, hsplit, ?_⟩
    · rw [hnorm, List.length_drop, hlen]
      omega
    · have hpw : List.Pairwise tsLe
          ((sortHistory l).take (l.length - window) ++
            normalizeHistory window l) := by
        rw [← hsplit]
        exact hsorted
      exact fun x hx y hy => (List.pairwise_append.mp hpw).2.2 x hx y hy

/-- Ledger fixture: five builds in increasing timestamp order. -/
def wLedger5 : List HistoryEntry :=
  [{ buildNo := "B1", total := 10, passed := 9, timestamp := 1 },
   { buildNo := "B2", total := 10, passed := 9, timestamp := 2 },
   { buildNo := "B3", total := 10, passed := 7, timestamp := 3 },
   { buildNo := "B4", total := 10, passed := 10, timestamp := 4 },
   { buildNo := "B5", total := 10, passed := 8, timestamp := 5 }]

/-- Witness for C6: with window four, builds B1 to B5 normalize to exactly
the four most recent builds B2 to B5 in ascending order. -/
theorem history_normalization_witness :
    (normalizeHistory 4 wLedger5).length = 4 ∧
    normalizeHistory 4 wLedger5 =
      [{ buildNo := "B2", total := 10, passed := 9, timestamp := 2 },
       { buildNo := "B3", total := 10, passed := 7, timestamp := 3 },
       { buildNo := "B4", total := 10, passed := 10, timestamp := 4 },
       { buildNo := "B5", total := 10, passed := 8, timestamp := 5 }] :=
  ⟨((history_normalization 4 wLedger5).2.2.2 (by decide)).1, by decide⟩

/-- Refined environment for the materialization pipeline, separating the
fs.existsSync check from the outcome of the subsequent read
(fs.promises.readFile on the embed path; the source read of
fs.promises.copyFile on the stored path): fsExists answers the existence
check, and fsRead p is the read outcome, with none modelling a rejected
promise (a path that exists but cannot be read). The source wraps only
the sharp re-encoding in try/catch, so a rejected read propagates out of
processAttachment, out of the Promise.all of onEnd, and aborts the run. -/
structure FsEnv where
  fsExists : String → Bool
  fsRead : String → Option (List Nat)
  compressJpeg : Int → List Nat → Option (List Nat)
  base64 : List Nat → String
  now : Nat
  attachmentsDir : String

/-- Guard of both pipeline branches:
attachment.path && fs.existsSync (attachment.path). -/
def pathChecked (env : FsEnv) (a : RawAttachment) : Bool :=
  match a.path with
  | some p => if p = "" then false else env.fsExists p
  | none => false

/-- Buffer acquisition over the refined environment: when the existence
check passes, the read must succeed or the whole materialization rejects
(nothing catches it); when it fails, fall back to the in-memory body,
which may also be absent. Both branches of processAttachment acquire
their source bytes this way. -/
def acquireBuffer (env : FsEnv) (a : RawAttachment) :
    Except String (Option (List Nat)) :=
  match a.path with
  | some p =>
    if p = "" then .ok a.body
    else if env.fsExists p then
      match env.fsRead p with
      | some b => .ok (some b)
      | none => .error "read rejected"
    else .ok a.body
  | none => .ok a.body

/-- Re-encoding step over the refined environment, identical in logic to
maybeCompress (sharp failures are caught in the source, hence total). -/
def maybeCompressE (env : FsEnv) (opts : Options) (ct : String)
    (buf : List Nat) : List Nat × String :=
  if strStartsWith ct "image/" && opts.compressImages && ct != "image/gif" then
    match env.compressJpeg opts.imageQuality buf with
    | some b => (b, "image/jpeg")
    | none => (buf, ct)
  else (buf, ct)

/-- getEmbeddedAssetData over the refined environment: a rejected read
propagates; an absent source still yields the empty data URL. -/
def getEmbeddedAssetDataE (env : FsEnv) (opts : Options)
    (a : RawAttachment) : Except String (String × String) :=
  let finalCT := resolveContentType a.contentType
  match acquireBuffer env a with
  | .error e => .error e
  | .ok none => .ok ("", finalCT)
  | .ok (some buf) =>
    let bc := maybeCompressE env opts finalCT buf
    .ok ("data:" ++ bc.2 ++ ";base64," ++ env.base64 bc.1, bc.2)

/-- processAttachment over the refined environment, with the write effects
returned as in the total model and a rejected source read surfacing as an
error in either mode. -/
def processAttachmentE (env : FsEnv) (opts : Options) (a : RawAttachment)
    (testId : String) (retry : Nat) :
    Except String (ProcessedAttachment × List (String × List Nat)) :=
  if opts.embedAssets then
    match getEmbeddedAssetDataE env opts a with
    | .error e => .error e
    | .ok dc =>
      .ok ({ name := a.name, contentType := dc.2, path := dc.1 }, [])
  else
    let fname := testId ++ "-" ++ a.name ++ "-" ++ toString retry ++ "-" ++
      toString env.now ++ "." ++ extOf a.contentType
    let dest := env.attachmentsDir ++ "/" ++ fname
    let rel := "attachments/" ++ fname
    match acquireBuffer env a with
    | .error e => .error e
    | .ok (some b) =>
      .ok ({ name := a.name,
             contentType := resolveContentType a.contentType,
             path := rel }, [(dest, b)])
    | .ok none =>
      .ok ({ name := a.name,
             contentType := resolveContentType a.contentType,
             path := rel }, [])

/-- True when the materialization promise resolves rather than rejects. -/
def materializes
    (r : Except String (ProcessedAttachment × List (String × List Nat))) :
    Bool :=
  match r with
  | .ok _ => true
  | .error _ => false

/-- A failed existence check falls back to the in-memory body. -/
theorem acquireBuffer_not_checked (env : FsEnv) (a : RawAttachment)
    (hp : pathChecked env a = false) :
    acquireBuffer env a = .ok a.body := by
  unfold acquireBuffer
  unfold pathChecked at hp
  cases hpa : a.path with
  | none => rfl
  | some p =>
    rw [hpa] at hp
    by_cases hps : p = ""
    · simp [hps]
    · simp only [hps, if_false] at hp
      simp [hps, hp]

/-- A path that passes the existence check but cannot be read rejects the
acquisition. -/
theorem acquireBuffer_unreadable (env : FsEnv) (a : RawAttachment)
    (p : String) (hpa : a.path = some p) (hps : p ≠ "")
    (hex : env.fsExists p = true) (hrd : env.fsRead p = none) :
    acquireBuffer env a = .error "read rejected" := by
  unfold acquireBuffer
  rw [hpa]
  simp [hps, hex, hrd]

/-- Under the total view (a path exists exactly when it is readable) the
refined acquisition always resolves, to the total buffer selection. -/
theorem acquireBuffer_agrees (fse : FsEnv) (env : Env) (a : RawAttachment)
    (he : ∀ p, fse.fsExists p = (env.fs p).isSome)
    (hr : ∀ p, fse.fsRead p = env.fs p) :
    acquireBuffer fse a = .ok (selectBuffer env a) := by
  cases hpa : a.path with
  | none => simp [acquireBuffer, selectBuffer, pathBytes, hpa]
  | some p =>
    by_cases hps : p = ""
    · simp [acquireBuffer, selectBuffer, pathBytes, hpa, hps]
    · have h1 := he p
      have h2 := hr p
      cases hf : env.fs p with
      | some b =>
        rw [hf] at h1 h2
        simp [acquireBuffer, selectBuffer, pathBytes, hpa, hps, h1, h2, hf]
      | none =>
        rw [hf] at h1 h2
        simp [acquireBuffer, selectBuffer, pathBytes, hpa, hps, h1, h2, hf]

/-- Under the total view the refined getEmbeddedAssetData always resolves,
to the total result. -/
theorem getEmbeddedAssetDataE_agrees (fse : FsEnv) (env : Env)
    (opts : Options) (a : RawAttachment)
    (he : ∀ p, fse.fsExists p = (env.fs p).isSome)
    (hr : ∀ p, fse.fsRead p = env.fs p)
    (hc : fse.compressJpeg = env.compressJpeg)
    (h64 : fse.base64 = env.base64) :
    getEmbeddedAssetDataE fse opts a =
      .ok (getEmbeddedAssetData env opts a) := by
  unfold getEmbeddedAssetDataE getEmbeddedAssetData
  rw [acquireBuffer_agrees fse env a he hr]
  cases hs : selectBuffer env a with
  | none => rfl
  | some buf => simp [maybeCompressE, maybeCompress, hc, h64]

/-- The total pipeline is the readable-filesystem specialization of the
refined one: when existence coincides with readability and the two
environments agree elsewhere, the refined materialization always resolves
and returns exactly the total record and writes. -/
theorem processAttachmentE_agrees (fse : FsEnv) (env : Env)
    (opts : Options) (a : RawAttachment) (tid : String) (retry : Nat)
    (he : ∀ p, fse.fsExists p = (env.fs p).isSome)
    (hr : ∀ p, fse.fsRead p = env.fs p)
    (hc : fse.compressJpeg = env.compressJpeg)
    (h64 : fse.base64 = env.base64)
    (hn : fse.now = env.now)
    (hd : fse.attachmentsDir = env.attachmentsDir) :
    processAttachmentE fse opts a tid retry =
      .ok (processAttachment env opts a tid retry) := by
  unfold processAttachmentE processAttachment
  cases hemb : opts.embedAssets
  · simp only [Bool.false_eq_true, if_false]
    rw [acquireBuffer_agrees fse env a he hr, hn, hd]
    unfold selectBuffer
    cases hpb : pathBytes env a with
    | some b => simp
    | none => cases hbd : a.body <;> simp
  · simp only [if_true]
    rw [getEmbeddedAssetDataE_agrees fse env opts a he hr hc h64]

/-- Raw attachment fixture whose declared path exists nowhere and which
carries no byte buffer. -/
def wMissingAtt : RawAttachment :=
  { name := "gone", contentType := "image/png",
    path := some "no/such/file.png", body := none }

/-- Refined environment fixture with an empty filesystem: nothing exists,
nothing reads. -/
def wMissEnv : FsEnv :=
  { fsExists := fun _ => false, fsRead := fun _ => none,
    compressJpeg := fun _ b => some b, base64 := fun _ => "",
    now := 0, attachmentsDir := "out" }

/-- Refined environment fixture where every path passes the existence
check but every read rejects (deleted between check and read, or
unreadable permissions). -/
def xEnv : FsEnv :=
  { fsExists := fun _ => true, fsRead := fun _ => none,
    compressJpeg := fun _ b => some b, base64 := fun _ => "",
    now := 0, attachmentsDir := "out" }

/-- Attachment fixture declaring a path that exists but cannot be read,
with no byte buffer. -/
def xAtt : RawAttachment :=
  { name := "shot", contentType := "image/png",
    path := some "shots/login.png", body := none }

/-- Stored-mode options fixture for the unreadable-path counterexample. -/
def xOptsStored : Options :=
  { embedAssets := false, compressImages := false, imageQuality := 80,
    buildNo := "N/A" }

/-- Counterexample for C7 as stated: an attachment whose declared path
passes the existence check but does not resolve to readable bytes (the
read rejects) and which carries no buffer is inside the claimed domain,
yet materialization rejects in embed mode and in stored mode instead of
returning a placeholder: only the sharp re-encoding is try/caught in the
source, so the rejection aborts onEnd. -/
theorem unreadable_path_counterexample :
    xEnv.fsExists "shots/login.png" = true ∧
    xEnv.fsRead "shots/login.png" = none ∧
    xAtt.body = none ∧
    materializes (processAttachmentE xEnv wOpts xAtt "t" 0) = false ∧
    materializes (processAttachmentE xEnv xOptsStored xAtt "t" 0) = false := by
  decide

/-- C7 amended: when the declared path fails the existence check (absent,
empty, or existsSync false) and no byte buffer is present, materialization
resolves in both modes without writing: to the empty inline reference in
embed mode and to a well-formed relative reference with no stored bytes
behind it in stored mode; when the declared path passes the existence
check but the read itself fails, the uncaught rejection propagates and
aborts the materialization in either mode. -/
theorem existence_check_placeholder (env : FsEnv) (opts : Options)
    (a : RawAttachment) (tid : String) (retry : Nat) (hb : a.body = none) :
    (pathChecked env a = false →
      (opts.embedAssets = true →
        processAttachmentE env opts a tid retry =
          .ok ({ name := a.name,
                 contentType := resolveContentType a.contentType,
                 path := "" }, [])) ∧
      (opts.embedAssets = false →
        processAttachmentE env opts a tid retry =
          .ok ({ name := a.name,
                 contentType := resolveContentType a.contentType,
                 path := "attachments/" ++ (tid ++ "-" ++ a.name ++ "-" ++
                   toString retry ++ "-" ++ toString env.now ++ "." ++
                   extOf a.contentType) }, []))) ∧
    (∀ p, a.path = some p → p ≠ "" → env.fsExists p = true →
      env.fsRead p = none →
      materializes (processAttachmentE env opts a tid retry) = false) := by
  constructor
  · intro hp
    have hacq : acquireBuffer env a = .ok none := by
      rw [acquireBuffer_not_checked env a hp, hb]
    constructor
    · intro hemb
      unfold processAttachmentE
      rw [hemb]
      simp only [if_true]
      unfold getEmbeddedAssetDataE
      rw [hacq]
    · intro hemb
      unfold processAttachmentE
      rw [hemb]
      simp only [Bool.false_eq_true, if_false]
      rw [hacq]
  · intro p hpa hps hex hrd
    have hacq := acquireBuffer_unreadable env a p hpa hps hex hrd
    unfold processAttachmentE
    cases hemb : opts.embedAssets
    · simp [hacq, materializes]
    · simp [getEmbeddedAssetDataE, hacq, materializes]

/-- Witness for C7 amended: with an empty filesystem the missing
attachment becomes the empty inline placeholder, and with an unreadable
existing path the materialization rejects. -/
theorem existence_check_placeholder_witness :
    processAttachmentE wMissEnv wOpts wMissingAtt "t1" 0 =
      .ok ({ name := wMissingAtt.name,
             contentType := resolveContentType wMissingAtt.contentType,
             path := "" }, []) ∧
    materializes (processAttachmentE xEnv wOpts xAtt "t1" 0) = false :=
  ⟨((existence_check_placeholder wMissEnv wOpts wMissingAtt "t1" 0 rfl).1
      (by decide)).1 rfl,
   (existence_check_placeholder xEnv wOpts xAtt "t1" 0 rfl).2
     "shots/login.png" rfl (by decide) rfl rfl⟩

/-- Environment fixture for the compression counterexample: the re-encoder
succeeds and returns the single byte nine. -/
def cEnv : Env :=
  { fs := fun _ => none, compressJpeg := fun _ _ => some [9],
    base64 := fun _ => "", now := 0, attachmentsDir := "out" }

/-- Options fixture for the compression counterexample: stored mode with
compression enabled. -/
def cOpts : Options :=
  { embedAssets := false, compressImages := true, imageQuality := 80,
    buildNo := "N/A" }

/-- Attachment fixture for the compression counterexample: a png buffer. -/
def cAtt : RawAttachment :=
  { name := "shot", contentType := "image/png", path := none,
    body := some [1, 2, 3] }

/-- Counterexample for C8 as stated: in stored mode, with compression
enabled, a non-gif image is written with its original bytes and keeps its
original content type, even though the configured re-encoder would have
succeeded; re-encoding happens only on the inline (embed) path. -/
theorem stored_mode_no_compression_counterexample :
    cOpts.compressImages = true ∧
    strStartsWith (resolveContentType cAtt.contentType) "image/" = true ∧
    resolveContentType cAtt.contentType ≠ "image/gif" ∧
    cEnv.compressJpeg cOpts.imageQuality [1, 2, 3] = some [9] ∧
    (processAttachment cEnv cOpts cAtt "t" 0).1.contentType =
      "image/png" ∧
    (processAttachment cEnv cOpts cAtt "t" 0).2.map Prod.snd =
      [[1, 2, 3]] := by
  refine ⟨rfl, by decide, by decide, rfl, rfl, rfl⟩

/-- C8 amended: for a non-gif image with compression enabled, on the
inline (embed) path the bytes are re-encoded at the configured quality and
tagged image/jpeg, with fallback to the original bytes and type when
re-encoding fails; the configured quality is always between 1 and 100; on
the stored path the original bytes and type are used unmodified. -/
theorem image_compression (env : Env) (opts : Options) (a : RawAttachment)
    (buf : List Nat) (tid : String) (retry : Nat) (q : Option Int)
    (hct : strStartsWith (resolveContentType a.contentType) "image/" = true)
    (hgif : resolveContentType a.contentType ≠ "image/gif")
    (hc : opts.compressImages = true)
    (hbuf : selectBuffer env a = some buf) :
    (1 ≤ normImageQuality q ∧ normImageQuality q ≤ 100) ∧
    (opts.embedAssets = true →
      getEmbeddedAssetData env opts a =
        match env.compressJpeg opts.imageQuality buf with
        | some b =>
          ("data:image/jpeg;base64," ++ env.base64 b, "image/jpeg")
        | none =>
          ("data:" ++ resolveContentType a.contentType ++ ";base64," ++
             env.base64 buf, resolveContentType a.contentType)) ∧
    (opts.embedAssets = false →
      (processAttachment env opts a tid retry).1.contentType =
        resolveContentType a.contentType ∧
      (processAttachment env opts a tid retry).2.map Prod.snd = [buf]) := by
  refine ⟨normImageQuality_bounds q, ?_, ?_⟩
  · intro he
    have hcond : (strStartsWith (resolveContentType a.contentType) "image/" &&
        opts.compressImages &&
        (resolveContentType a.contentType != "image/gif")) = true := by
      simp [hct, hc, hgif]
    unfold getEmbeddedAssetData
    rw [hbuf]
    simp only [maybeCompress, hcond, if_pos]
    cases hcj : env.compressJpeg opts.imageQuality buf <;> simp
  · intro he
    unfold processAttachment
    rw [he]
    simp only [Bool.false_eq_true, if_neg]
    constructor
    · rfl
    · unfold selectBuffer at hbuf
      cases hpb : pathBytes env a with
      | some b =>
        rw [hpb] at hbuf
        simp at hbuf
        simp [hpb, hbuf]
      | none =>
        rw [hpb] at hbuf
        simp at hbuf
        simp [hpb, hbuf]

/-- Witness for C8 amended: a png body in embed mode is re-encoded by the
witness re-encoder at the configured quality and inlined as image/jpeg,
and in stored mode the same attachment keeps its original bytes. -/
theorem image_compression_witness :
    (getEmbeddedAssetData cEnv wOpts cAtt =
      ("data:image/jpeg;base64," ++ cEnv.base64 [9], "image/jpeg")) ∧
    (processAttachment cEnv cOpts cAtt "t" 1).1.contentType =
      resolveContentType cAtt.contentType ∧
    (processAttachment cEnv cOpts cAtt "t" 1).2.map Prod.snd =
      [[1, 2, 3]] :=
  ⟨(image_compression cEnv wOpts cAtt [1, 2, 3] "t" 1 (some 80)
      (by decide) (by decide) rfl rfl).2.1 rfl,
   (image_compression cEnv cOpts cAtt [1, 2, 3] "t" 1 (some 80)
      (by decide) (by decide) rfl rfl).2.2 rfl⟩

end QAUtils
